import Mathlib

/-!
Verification of the agent execution engine of `deepseek-code`.

The definitions below are a shallow embedding of the TypeScript sources:
* `src/types.ts` (bundled in `src/agent/index.ts`): roles, messages, memory,
  `createMemory`, `addToMemory`;
* `src/agent/base.ts` (bundled in `src/agent/index.ts`): `BaseAgent` state,
  logging, `isStuck`, `handleStuck`, `clearMemory`, `run`;
* `src/tools/base.ts`: `BaseTool.call`, `ToolCollection.execute`;
* `src/tools` terminate tool: `TerminateTool.execute`;
* `src/index.ts` (CLI): the fixed pipeline and `runPipeline`.

JavaScript-specific behaviour (negative `Array.prototype.slice` indices,
`||` defaulting, strict `!==` comparison, `Set` deduplication) is embedded
explicitly so the theorems speak about the code as written.
-/

namespace DeepseekCode

-- ============================================================
-- Data model (src/types.ts)
-- ============================================================

/-- `Role` enum from `src/types.ts`. -/
inductive Role where
  | system
  | user
  | assistant
  | tool
deriving DecidableEq, Repr

/-- `FunctionCall` from `src/types.ts`: name plus raw JSON arguments. -/
structure FunctionCall where
  name : String
  arguments : String
deriving DecidableEq, Repr

/-- `ToolCall` from `src/types.ts` (the `type` field is always the literal
`'function'`, so it is omitted). -/
structure ToolCall where
  id : String
  function : FunctionCall
deriving DecidableEq, Repr

/-- `Message` from `src/types.ts`.  `content` is `string | null`; the optional
fields are embedded as `Option`. -/
structure Message where
  role : Role
  content : Option String
  name : Option String := none
  toolCalls : Option (List ToolCall) := none
  toolCallId : Option String := none
  images : Option (List String) := none
deriving DecidableEq, Repr

/-- `userMessage` helper from `src/types.ts`. -/
def userMessage (content : String) : Message :=
  { role := Role.user, content := some content }

/-- `systemMessage` helper from `src/types.ts`. -/
def systemMessage (content : String) : Message :=
  { role := Role.system, content := some content }

/-- `assistantMessage` helper from `src/types.ts`. -/
def assistantMessage (content : Option String) (toolCalls : Option (List ToolCall) := none) :
    Message :=
  { role := Role.assistant, content := content, toolCalls := toolCalls }

/-- `toolMessage` helper from `src/types.ts`. -/
def toolMessage (content : String) (toolCallId : String) : Message :=
  { role := Role.tool, content := some content, toolCallId := some toolCallId }

/-- `Memory` from `src/types.ts`: an ordered message list plus an optional
maximum length (`maxMessages?: number`). -/
structure Memory where
  messages : List Message
  maxMessages : Option Nat
deriving DecidableEq, Repr

/-- `createMemory` from `src/types.ts`. -/
def createMemory (maxMessages : Option Nat) : Memory :=
  { messages := [], maxMessages := maxMessages }

/-- JavaScript `Array.prototype.slice(start)` (to the end of the array):
a negative `start` counts from the end and clamps at 0; a non-negative
`start` clamps at the length. -/
def jsSliceFrom {α : Type} (l : List α) (start : Int) : List α :=
  l.drop (if start < 0 then ((l.length : Int) + start).toNat else start.toNat)

/-- `addToMemory` from `src/types.ts`.  The guard
`memory.maxMessages && messages.length > memory.maxMessages` is JavaScript
truthiness: it fires only when `maxMessages` is present and nonzero.  The trim
keeps every system message and `otherMessages.slice(-maxMessages + systemCount)`
of the rest, then stores `[...systemMessages, ...trimmed]`. -/
def addToMemory (memory : Memory) (message : Message) : Memory :=
  let messages := memory.messages ++ [message]
  match memory.maxMessages with
  | some maxM =>
    if maxM ≠ 0 ∧ messages.length > maxM then
      let systemMessages := messages.filter (fun m => m.role = Role.system)
      let otherMessages := messages.filter (fun m => ¬ m.role = Role.system)
      let trimmed := jsSliceFrom otherMessages (-(maxM : Int) + systemMessages.length)
      { memory with messages := systemMessages ++ trimmed }
    else
      { memory with messages := messages }
  | none => { memory with messages := messages }

/-- `getLastMessages` from `src/types.ts`: `memory.messages.slice(-count)`. -/
def getLastMessages (memory : Memory) (count : Nat) : List Message :=
  jsSliceFrom memory.messages (-(count : Int))

-- ============================================================
-- Memory lemmas
-- ============================================================

/-- Concrete two-append run against a memory bounded at 1: a system message
followed by a user message. -/
def memBound1 : Memory :=
  addToMemory (addToMemory (createMemory (some 1)) (systemMessage "s")) (userMessage "u")

/-- Concrete memory bounded at 3 holding `[user "a", user "b", system "s1"]`. -/
def memBound3 : Memory :=
  addToMemory (addToMemory (addToMemory (createMemory (some 3))
    (userMessage "a")) (userMessage "b")) (systemMessage "s1")

lemma length_filter_add_length_filter_not {α : Type} (p : α → Bool) (l : List α) :
    (l.filter p).length + (l.filter (fun a => !(p a))).length = l.length := by
  induction l with
  | nil => simp
  | cons a t ih =>
    by_cases h : p a <;> simp [List.filter_cons, h] <;> omega

/-- The key shape of `addToMemory`'s trim branch: when the appended list
exceeds the bound and the system messages alone stay under the bound, the
stored list is all system messages followed by the non-system messages with
the oldest `length - maxM` of them removed. -/
lemma addToMemory_evict_eq (m : Memory) (msg : Message) (maxM : Nat)
    (hmax : m.maxMessages = some maxM)
    (hover : m.messages.length + 1 > maxM)
    (hsys : (((m.messages ++ [msg]).filter (fun x => x.role = Role.system)).length < maxM)) :
    (addToMemory m msg).messages =
      (m.messages ++ [msg]).filter (fun x => x.role = Role.system) ++
        ((m.messages ++ [msg]).filter (fun x => ¬ x.role = Role.system)).drop
          (m.messages.length + 1 - maxM) := by
  have hpart :
      (((m.messages ++ [msg]).filter (fun x => x.role = Role.system)).length) +
        (((m.messages ++ [msg]).filter (fun x => ¬ x.role = Role.system)).length) =
        m.messages.length + 1 := by
    have h := length_filter_add_length_filter_not
      (fun x : Message => decide (x.role = Role.system)) (m.messages ++ [msg])
    simpa [decide_not] using h
  have hcond : maxM ≠ 0 ∧ (m.messages ++ [msg]).length > maxM := by
    constructor
    · omega
    · simpa using hover
  unfold addToMemory
  rw [hmax]
  dsimp only
  rw [if_pos hcond]
  simp only [jsSliceFrom]
  congr 1
  have hneg : (-(maxM : Int) +
      (((m.messages ++ [msg]).filter (fun x => x.role = Role.system)).length : Int)) < 0 := by
    omega
  rw [if_pos hneg]
  congr 1
  omega

/-- In the trim branch the stored length is exactly the bound. -/
lemma addToMemory_evict_length (m : Memory) (msg : Message) (maxM : Nat)
    (hmax : m.maxMessages = some maxM)
    (hover : m.messages.length + 1 > maxM)
    (hsys : (((m.messages ++ [msg]).filter (fun x => x.role = Role.system)).length < maxM)) :
    (addToMemory m msg).messages.length = maxM := by
  have hpart :
      (((m.messages ++ [msg]).filter (fun x => x.role = Role.system)).length) +
        (((m.messages ++ [msg]).filter (fun x => ¬ x.role = Role.system)).length) =
        m.messages.length + 1 := by
    have h := length_filter_add_length_filter_not
      (fun x : Message => decide (x.role = Role.system)) (m.messages ++ [msg])
    simpa [decide_not] using h
  rw [addToMemory_evict_eq m msg maxM hmax hover hsys]
  rw [List.length_append, List.length_drop]
  omega

/-- C1: the claimed bound fails in the code.  With a memory created with
maximum size 1, appending a system turn and then a user turn stores 2 turns:
`otherMessages.slice(-maxMessages + systemCount)` receives the non-negative
start index 0 once the system turns alone reach the bound, so it keeps the
old user turns instead of discarding them and the stored length exceeds the
configured maximum. -/
theorem C1_bound_violated_at_failing_input :
    memBound1.maxMessages = some 1 ∧ memBound1.messages.length = 2 := by
  decide

/-- C2 counterexample: with maximum size 3 and stored turns
`[user "a", user "b", system "s1"]`, appending `user "c"` stores
`[system "s1", user "b", user "c"]`.  The kept turns are not in their original
interleaved positions: `user "b"` preceded `system "s1"` in the original
sequence, so the stored list is not a subsequence of the original one. -/
theorem C2_counterexample :
    (addToMemory memBound3 (userMessage "c")).messages =
        [systemMessage "s1", userMessage "b", userMessage "c"] ∧
      ¬ List.Sublist (addToMemory memBound3 (userMessage "c")).messages
          (memBound3.messages ++ [userMessage "c"]) := by
  decide

/-- C2 (amended): when an append overflows the bound and the system turns
stay strictly under the bound, the eviction keeps every system turn and
exactly the most recent `maxSize - systemCount` non-system turns, each group
in its original relative order, but stores all system turns first followed by
the kept non-system turns (not in original interleaved positions); the stored
length is then exactly the bound. -/
theorem C2_evict_keeps_system_and_recent (m : Memory) (msg : Message) (maxM : Nat)
    (hmax : m.maxMessages = some maxM)
    (hover : m.messages.length + 1 > maxM)
    (hsys : (((m.messages ++ [msg]).filter (fun x => x.role = Role.system)).length < maxM)) :
    (addToMemory m msg).messages =
      (m.messages ++ [msg]).filter (fun x => x.role = Role.system) ++
        ((m.messages ++ [msg]).filter (fun x => ¬ x.role = Role.system)).drop
          (m.messages.length + 1 - maxM) ∧
    (addToMemory m msg).messages.length = maxM ∧
    (((m.messages ++ [msg]).filter (fun x => ¬ x.role = Role.system)).drop
          (m.messages.length + 1 - maxM)).length =
      maxM - ((m.messages ++ [msg]).filter (fun x => x.role = Role.system)).length := by
  refine ⟨addToMemory_evict_eq m msg maxM hmax hover hsys,
    addToMemory_evict_length m msg maxM hmax hover hsys, ?_⟩
  have hpart :
      (((m.messages ++ [msg]).filter (fun x => x.role = Role.system)).length) +
        (((m.messages ++ [msg]).filter (fun x => ¬ x.role = Role.system)).length) =
        m.messages.length + 1 := by
    have h := length_filter_add_length_filter_not
      (fun x : Message => decide (x.role = Role.system)) (m.messages ++ [msg])
    simpa [decide_not] using h
  rw [List.length_drop]
  omega

/-- C2 witness: the amended statement instantiated at the concrete overflow
`memBound3` + `user "c"` with bound 3. -/
theorem C2_evict_keeps_system_and_recent_witness :
    (addToMemory memBound3 (userMessage "c")).messages =
      (memBound3.messages ++ [userMessage "c"]).filter (fun x => x.role = Role.system) ++
        ((memBound3.messages ++ [userMessage "c"]).filter
          (fun x => ¬ x.role = Role.system)).drop
          (memBound3.messages.length + 1 - 3) ∧
    (addToMemory memBound3 (userMessage "c")).messages.length = 3 ∧
    (((memBound3.messages ++ [userMessage "c"]).filter
          (fun x => ¬ x.role = Role.system)).drop
          (memBound3.messages.length + 1 - 3)).length =
      3 - ((memBound3.messages ++ [userMessage "c"]).filter
          (fun x => x.role = Role.system)).length :=
  C2_evict_keeps_system_and_recent memBound3 (userMessage "c") 3
    (by decide) (by decide) (by decide)

-- ============================================================
-- Agent (src/agent/base.ts)
-- ============================================================

/-- `AgentState` enum. -/
inductive AgentState where
  | idle
  | running
  | finished
  | error
deriving DecidableEq, Repr

/-- The string value of the TypeScript enum member, as interpolated into log
and exception text. -/
def AgentState.toText : AgentState → String
  | .idle => "idle"
  | .running => "running"
  | .finished => "finished"
  | .error => "error"

/-- The `level` union of `TaskLog`. -/
inductive LogLevel where
  | info
  | warning
  | error
  | debug
deriving DecidableEq, Repr

/-- `TaskLog` from `src/types.ts`.  The TypeScript `timestamp` is
`new Date().toISOString()`; it is embedded as an abstract clock value drawn
from a counter the agent carries. -/
structure TaskLog where
  timestamp : Nat
  level : LogLevel
  message : String
deriving DecidableEq, Repr

/-- The mutable fields of `BaseAgent` that the claims touch: configuration
(`name`, `description`, `nextStepPrompt`, `maxSteps`, resolved
`systemPrompt`), the state machine fields (`_state`, `currentStep`), the
conversation `memory`, the `logs` buffer, and the abstract clock feeding log
timestamps. -/
structure Agent where
  name : String
  description : String
  nextStepPrompt : String
  maxSteps : Nat
  state : AgentState
  currentStep : Nat
  memory : Memory
  logs : List TaskLog
  systemPrompt : String
  clock : Nat
deriving DecidableEq, Repr

/-- `BaseAgent.log`: push a timestamped entry onto `this.logs` (the `onLog`
callback only mirrors the entry outward and is not modelled). -/
def Agent.log (a : Agent) (level : LogLevel) (message : String) : Agent :=
  { a with logs := a.logs ++ [⟨a.clock, level, message⟩], clock := a.clock + 1 }

/-- `BaseAgent.setState`: record the new state, then log the transition. -/
def Agent.setState (a : Agent) (s : AgentState) : Agent :=
  Agent.log { a with state := s } LogLevel.info
    ("상태 변경: " ++ a.state.toText ++ " → " ++ s.toText)

/-- `BaseAgent.isRunning`. -/
def Agent.isRunning (a : Agent) : Bool :=
  a.state = AgentState.running

/-- `BaseAgent.updateMemory`. -/
def Agent.updateMemory (a : Agent) (m : Message) : Agent :=
  { a with memory := addToMemory a.memory m }

/-- `BaseAgent.getMessages`. -/
def Agent.getMessages (a : Agent) : List Message :=
  a.memory.messages

/-- `BaseAgent.clearMemory`: fresh memory bounded at 100, counter 0, state
idle, and the log buffer replaced by a new empty array. -/
def Agent.clearMemory (a : Agent) : Agent :=
  { a with memory := createMemory (some 100), currentStep := 0,
           state := AgentState.idle, logs := [] }

/-- `BaseAgent.getLogs`. -/
def Agent.getLogs (a : Agent) : List TaskLog :=
  a.logs

/-- `BaseAgent.isStuck`: with fewer than 4 messages report not-stuck;
otherwise compare the number of distinct contents of the assistant messages
among `messages.slice(-4)` (a JavaScript `Set` of `string | null`) against
their count. -/
def Agent.isStuck (a : Agent) : Bool :=
  let messages := a.getMessages
  if messages.length < 4 then false
  else
    let recent := jsSliceFrom messages (-(4 : Int))
    let assistantMessages := recent.filter (fun m => m.role = Role.assistant)
    if assistantMessages.length < 2 then false
    else
      let contents := assistantMessages.map (fun m => m.content)
      decide (contents.dedup.length < contents.length)

/-- The corrective system turn injected by `BaseAgent.handleStuck`. -/
def stuckNoticeText : String :=
  "주의: 동일한 응답이 반복되고 있습니다. 다른 접근 방식을 시도하거나, 작업을 완료할 수 없다면 terminate 도구를 사용하세요."

/-- `BaseAgent.handleStuck`: log a warning, then append the corrective
system turn. -/
def Agent.handleStuck (a : Agent) : Agent :=
  (a.log LogLevel.warning "동일한 응답이 반복되고 있습니다. 전략을 변경합니다.").updateMemory
    (systemMessage stuckNoticeText)

-- ============================================================
-- The step loop (BaseAgent.run)
-- ============================================================

/-- `StepResult` from `src/types.ts` as consumed by `BaseAgent.run`.  The
optional `shouldFinish` flag is falsy when absent, which collapses to a plain
`Bool`; `message` is optional; the `toolResults` field is never read by
`run` and is omitted. -/
structure StepResult where
  success : Bool
  message : Option String := none
  shouldFinish : Bool := false
deriving DecidableEq, Repr

/-- Modelled from the spec: `BaseAgent.step` is abstract in `src/` and its
implementations live in `toolcall.ts`, which is not among the sources.  Per
the spec a step exchanges turns with the model and the tools — appending
turns and log entries — and either returns a `StepResult` or raises a
transport/logic fault.  A step behaviour therefore yields, from the agent it
observes, replacement memory, logs and clock together with a `StepResult`,
or a raised fault. -/
inductive StepOutcome where
  | ok (memory : Memory) (logs : List TaskLog) (clock : Nat) (result : StepResult)
  | fault (msg : String)

/-- A step behaviour: what one `await this.step()` call does as a function of
the agent it runs on. -/
abbrev StepFn := Agent → StepOutcome

/-- A step outcome that neither raises nor signals completion. -/
def StepOutcome.continuesOk : StepOutcome → Prop
  | .ok _ _ _ r => r.shouldFinish = false
  | .fault _ => False

/-- The outcome of `BaseAgent.run` as seen by the caller: an ordinary string
result, or a raised fault. -/
inductive RunOutcome where
  | ok (message : String)
  | fault (msg : String)
deriving DecidableEq, Repr

/-- `'작업이 완료되었습니다.'` — the default completion message. -/
def completedMessage : String := "작업이 완료되었습니다."

/-- `'최대 실행 횟수에 도달했습니다. ...'` — the budget-exhausted result. -/
def budgetExhaustedMessage : String :=
  "최대 실행 횟수에 도달했습니다. 작업이 완료되지 않았을 수 있습니다."

/-- `result.message || '작업이 완료되었습니다.'`: JavaScript `||` falls
through on an absent message and on the empty string. -/
def messageOrCompleted : Option String → String
  | some s => if s = "" then completedMessage else s
  | none => completedMessage

/-- The code after the `while` loop in `BaseAgent.run`: on budget exhaustion
transition to finished and return the budget-exhausted message; otherwise
fall through to the trailing default return. -/
def runLoopExit (a : Agent) : RunOutcome × Agent :=
  if a.currentStep ≥ a.maxSteps then
    let a1 := (a.setState AgentState.finished).log LogLevel.warning "최대 스텝에 도달했습니다."
    (RunOutcome.ok budgetExhaustedMessage, a1)
  else
    (RunOutcome.ok completedMessage, a)

/-- The head of one loop iteration: `this.currentStep++`, the
`"Step i/max"` log entry, and the stuck check with its corrective turn. -/
def loopIter (a : Agent) : Agent :=
  let a1 := { a with currentStep := a.currentStep + 1 }
  let a2 := a1.log LogLevel.info
    ("Step " ++ toString a1.currentStep ++ "/" ++ toString a1.maxSteps)
  if a2.isStuck then a2.handleStuck else a2

/-- Install the memory/log/clock effects a step produced. -/
def applyStepEffect (a : Agent) (mem : Memory) (logs : List TaskLog) (clock : Nat) : Agent :=
  { a with memory := mem, logs := logs, clock := clock }

/-- The `while (this.currentStep < this.maxSteps && this.isRunning())` loop
of `BaseAgent.run`, with the surrounding `catch` applied at the point a step
raises (the only raising position inside the `try`).  `fuel` is an upper
bound on the remaining iterations; `run` supplies `maxSteps - currentStep`,
which the loop never exhausts because each iteration increments
`currentStep` by exactly one. -/
def runLoop (step : StepFn) (fuel : Nat) (a : Agent) : RunOutcome × Agent :=
  match fuel with
  | 0 => runLoopExit a
  | fuel + 1 =>
    if a.currentStep < a.maxSteps ∧ a.isRunning then
      let a3 := loopIter a
      match step a3 with
      | StepOutcome.fault msg =>
        (RunOutcome.fault msg,
          (a3.setState AgentState.error).log LogLevel.error ("오류 발생: " ++ msg))
      | StepOutcome.ok mem logs clock r =>
        let a4 := applyStepEffect a3 mem logs clock
        if r.shouldFinish then
          (RunOutcome.ok (messageOrCompleted r.message),
            (a4.setState AgentState.finished).log LogLevel.info "작업 완료")
        else
          runLoop step fuel a4
    else
      runLoopExit a

/-- The opening of `BaseAgent.run` after the re-entrancy check: transition to
running, log the start, and append the system prompt and user request. -/
def seededAgent (a : Agent) (request : String) : Agent :=
  let a1 := a.setState AgentState.running
  let a2 := a1.log LogLevel.info ("작업 시작: " ++ request.take 100 ++ "...")
  let a3 := a2.updateMemory (systemMessage a2.systemPrompt)
  a3.updateMemory (userMessage request)

/-- `BaseAgent.run`: reject non-idle agents before any mutation; otherwise
transition to running, log, seed memory with the system prompt and the user
request, and enter the step loop. -/
def run (step : StepFn) (a : Agent) (request : String) : RunOutcome × Agent :=
  if a.state ≠ AgentState.idle then
    (RunOutcome.fault ("Agent is already " ++ a.state.toText), a)
  else
    runLoop step ((seededAgent a request).maxSteps - (seededAgent a request).currentStep)
      (seededAgent a request)

-- ============================================================
-- Projection lemmas for the agent operations
-- ============================================================

@[simp] lemma Agent.state_log (a : Agent) (l : LogLevel) (m : String) :
    (a.log l m).state = a.state := rfl

@[simp] lemma Agent.currentStep_log (a : Agent) (l : LogLevel) (m : String) :
    (a.log l m).currentStep = a.currentStep := rfl

@[simp] lemma Agent.maxSteps_log (a : Agent) (l : LogLevel) (m : String) :
    (a.log l m).maxSteps = a.maxSteps := rfl

@[simp] lemma Agent.state_updateMemory (a : Agent) (m : Message) :
    (a.updateMemory m).state = a.state := rfl

@[simp] lemma Agent.currentStep_updateMemory (a : Agent) (m : Message) :
    (a.updateMemory m).currentStep = a.currentStep := rfl

@[simp] lemma Agent.maxSteps_updateMemory (a : Agent) (m : Message) :
    (a.updateMemory m).maxSteps = a.maxSteps := rfl

@[simp] lemma Agent.state_setState (a : Agent) (s : AgentState) :
    (a.setState s).state = s := rfl

@[simp] lemma Agent.currentStep_setState (a : Agent) (s : AgentState) :
    (a.setState s).currentStep = a.currentStep := rfl

@[simp] lemma Agent.maxSteps_setState (a : Agent) (s : AgentState) :
    (a.setState s).maxSteps = a.maxSteps := rfl

@[simp] lemma Agent.state_handleStuck (a : Agent) :
    a.handleStuck.state = a.state := rfl

@[simp] lemma Agent.currentStep_handleStuck (a : Agent) :
    a.handleStuck.currentStep = a.currentStep := rfl

@[simp] lemma Agent.maxSteps_handleStuck (a : Agent) :
    a.handleStuck.maxSteps = a.maxSteps := rfl

@[simp] lemma loopIter_state (a : Agent) : (loopIter a).state = a.state := by
  unfold loopIter
  dsimp only
  split <;> simp

@[simp] lemma loopIter_currentStep (a : Agent) :
    (loopIter a).currentStep = a.currentStep + 1 := by
  unfold loopIter
  dsimp only
  split <;> simp

@[simp] lemma loopIter_maxSteps (a : Agent) : (loopIter a).maxSteps = a.maxSteps := by
  unfold loopIter
  dsimp only
  split <;> simp

@[simp] lemma applyStepEffect_state (a : Agent) (mem : Memory) (logs : List TaskLog)
    (clock : Nat) : (applyStepEffect a mem logs clock).state = a.state := rfl

@[simp] lemma applyStepEffect_currentStep (a : Agent) (mem : Memory) (logs : List TaskLog)
    (clock : Nat) : (applyStepEffect a mem logs clock).currentStep = a.currentStep := rfl

@[simp] lemma applyStepEffect_maxSteps (a : Agent) (mem : Memory) (logs : List TaskLog)
    (clock : Nat) : (applyStepEffect a mem logs clock).maxSteps = a.maxSteps := rfl

@[simp] lemma Agent.isRunning_iff (a : Agent) :
    a.isRunning = true ↔ a.state = AgentState.running := by
  simp [Agent.isRunning]

-- ============================================================
-- Loop invariants
-- ============================================================

/-- From a running agent with `currentStep ≤ maxSteps` and enough fuel, the
loop always lands in `finished` or `error`, without the counter passing
`maxSteps`. -/
lemma runLoop_terminal (step : StepFn) :
    ∀ (fuel : Nat) (a : Agent), a.state = AgentState.running →
      a.currentStep ≤ a.maxSteps → a.maxSteps ≤ a.currentStep + fuel →
      ((runLoop step fuel a).2.state = AgentState.finished ∨
        (runLoop step fuel a).2.state = AgentState.error) ∧
      (runLoop step fuel a).2.currentStep ≤ a.maxSteps := by
  intro fuel
  induction fuel with
  | zero =>
    intro a _ hle hfuel
    have hge : a.maxSteps ≤ a.currentStep := by omega
    simp only [runLoop, runLoopExit, ge_iff_le]
    rw [if_pos hge]
    exact ⟨Or.inl (by simp), by simp [hle]⟩
  | succ fuel ih =>
    intro a hrun hle hfuel
    by_cases hguard : a.currentStep < a.maxSteps ∧ a.isRunning
    · have hlt := hguard.1
      rw [runLoop, if_pos hguard]
      dsimp only
      cases hstep : step (loopIter a) with
      | fault msg =>
        dsimp only
        refine ⟨Or.inr (by simp), ?_⟩
        simp
        omega
      | ok mem logs clock r =>
        dsimp only
        by_cases hsf : r.shouldFinish
        · rw [if_pos hsf]
          refine ⟨Or.inl (by simp), ?_⟩
          simp
          omega
        · rw [if_neg hsf]
          have h4state : (applyStepEffect (loopIter a) mem logs clock).state =
              AgentState.running := by simp [hrun]
          have h4step : (applyStepEffect (loopIter a) mem logs clock).currentStep =
              a.currentStep + 1 := by simp
          have h4max : (applyStepEffect (loopIter a) mem logs clock).maxSteps =
              a.maxSteps := by simp
          have := ih (applyStepEffect (loopIter a) mem logs clock) h4state
            (by omega) (by omega)
          rw [h4max] at this
          exact this
    · rw [runLoop, if_neg hguard]
      have hge : a.maxSteps ≤ a.currentStep := by
        rcases not_and_or.mp hguard with h | h
        · omega
        · exact absurd (Agent.isRunning_iff a |>.mpr hrun) h
      simp only [runLoopExit, ge_iff_le]
      rw [if_pos hge]
      exact ⟨Or.inl (by simp), by simp [hle]⟩

/-- From a running agent, if every step continues (no finish signal, no
fault), the loop runs the counter up to `maxSteps` and exits through the
budget-exhausted branch, finishing normally. -/
lemma runLoop_no_finish (step : StepFn) (hstep : ∀ b, (step b).continuesOk) :
    ∀ (fuel : Nat) (a : Agent), a.state = AgentState.running →
      a.currentStep ≤ a.maxSteps → a.maxSteps ≤ a.currentStep + fuel →
      (runLoop step fuel a).1 = RunOutcome.ok budgetExhaustedMessage ∧
      (runLoop step fuel a).2.state = AgentState.finished ∧
      (runLoop step fuel a).2.currentStep = a.maxSteps := by
  intro fuel
  induction fuel with
  | zero =>
    intro a _ hle hfuel
    have hge : a.maxSteps ≤ a.currentStep := by omega
    simp only [runLoop, runLoopExit, ge_iff_le]
    rw [if_pos hge]
    exact ⟨rfl, by simp, by simp; omega⟩
  | succ fuel ih =>
    intro a hrun hle hfuel
    by_cases hguard : a.currentStep < a.maxSteps ∧ a.isRunning
    · rw [runLoop, if_pos hguard]
      dsimp only
      cases hstep' : step (loopIter a) with
      | fault msg =>
        have hc := hstep (loopIter a)
        rw [hstep'] at hc
        exact hc.elim
      | ok mem logs clock r =>
        have hsf : r.shouldFinish = false := by
          have hc := hstep (loopIter a)
          rw [hstep'] at hc
          exact hc
        dsimp only
        rw [if_neg (by simp [hsf])]
        have h4state : (applyStepEffect (loopIter a) mem logs clock).state =
            AgentState.running := by simp [hrun]
        have h4max : (applyStepEffect (loopIter a) mem logs clock).maxSteps =
            a.maxSteps := by simp
        have := ih (applyStepEffect (loopIter a) mem logs clock) h4state
          (by simp; omega) (by simp; omega)
        rw [h4max] at this
        exact this
    · rw [runLoop, if_neg hguard]
      have hge : a.maxSteps ≤ a.currentStep := by
        rcases not_and_or.mp hguard with h | h
        · omega
        · exact absurd (Agent.isRunning_iff a |>.mpr hrun) h
      simp only [runLoopExit, ge_iff_le]
      rw [if_pos hge]
      exact ⟨rfl, by simp, by simp; omega⟩

-- ============================================================
-- C10, C5 and the C4 counterexample
-- ============================================================

/-- C10: `clearMemory` resets the agent fully — state idle, step counter 0,
memory replaced by a fresh empty memory bounded at 100, and the accumulated
log list discarded, so `getLogs` returns nothing afterwards. -/
theorem C10_clearMemory_resets (a : Agent) :
    a.clearMemory.state = AgentState.idle ∧
    a.clearMemory.currentStep = 0 ∧
    a.clearMemory.memory = createMemory (some 100) ∧
    a.clearMemory.memory.messages = [] ∧
    a.clearMemory.getLogs = [] :=
  ⟨rfl, rfl, rfl, rfl, rfl⟩

/-- C5: calling `run` on a non-idle agent raises the re-entrancy fault
immediately and returns the agent completely unaltered — no state
transition, no memory append, no log entry, no step executed. -/
theorem C5_run_rejects_non_idle (step : StepFn) (a : Agent) (request : String)
    (h : a.state ≠ AgentState.idle) :
    run step a request = (RunOutcome.fault ("Agent is already " ++ a.state.toText), a) := by
  unfold run
  rw [if_pos h]

/-- A step behaviour that leaves memory, logs and clock in place and never
signals completion. -/
def neverFinishStep : StepFn := fun b =>
  StepOutcome.ok b.memory b.logs b.clock { success := true }

/-- A concrete agent frozen mid-run (state running). -/
def busyAgent : Agent :=
  { name := "Agent", description := "", nextStepPrompt := "", maxSteps := 20,
    state := AgentState.running, currentStep := 1,
    memory := createMemory (some 100), logs := [], systemPrompt := "sp", clock := 0 }

/-- C5 witness: the re-entrancy rejection evaluated on a concrete running
agent. -/
theorem C5_run_rejects_non_idle_witness :
    run neverFinishStep busyAgent "t" =
      (RunOutcome.fault "Agent is already running", busyAgent) := by
  have h := C5_run_rejects_non_idle neverFinishStep busyAgent "t" (by decide)
  rw [h]
  decide

/-- C4 counterexample: for an agent already in the running state, `run`
raises the re-entrancy fault and the agent's state afterwards is still
`running` — not `finished` or `error` as the claim requires after every
return or raise. -/
theorem C4_counterexample :
    (run neverFinishStep busyAgent "t").2.state = AgentState.running ∧
    (run neverFinishStep busyAgent "t").1 =
      RunOutcome.fault "Agent is already running" := by
  decide

@[simp] lemma seededAgent_state (a : Agent) (request : String) :
    (seededAgent a request).state = AgentState.running := by
  simp [seededAgent]

@[simp] lemma seededAgent_currentStep (a : Agent) (request : String) :
    (seededAgent a request).currentStep = a.currentStep := by
  simp [seededAgent]

@[simp] lemma seededAgent_maxSteps (a : Agent) (request : String) :
    (seededAgent a request).maxSteps = a.maxSteps := by
  simp [seededAgent]

/-- C4 (amended): for every agent started from the idle state whose step
counter does not exceed `maxSteps` (as holds for fresh or reset agents) and
every behaviour of the step function, once `run` returns or raises the
counter is at most `maxSteps` and the state is `finished` or `error`. -/
theorem C4_run_ends_terminal (step : StepFn) (a : Agent) (request : String)
    (hidle : a.state = AgentState.idle) (hle : a.currentStep ≤ a.maxSteps) :
    ((run step a request).2.state = AgentState.finished ∨
      (run step a request).2.state = AgentState.error) ∧
    (run step a request).2.currentStep ≤ a.maxSteps := by
  unfold run
  rw [if_neg (by simp [hidle])]
  have h := runLoop_terminal step
    ((seededAgent a request).maxSteps - (seededAgent a request).currentStep)
    (seededAgent a request) (by simp) (by simp [hle]) (by simp; omega)
  simpa using h

/-- A concrete idle agent with a small budget. -/
def freshAgent : Agent :=
  { name := "Agent", description := "", nextStepPrompt := "", maxSteps := 3,
    state := AgentState.idle, currentStep := 0,
    memory := createMemory (some 100), logs := [], systemPrompt := "sp", clock := 0 }

/-- C4 witness: the amended statement evaluated on a fresh idle agent with a
step behaviour that never terminates the task. -/
theorem C4_run_ends_terminal_witness :
    ((run neverFinishStep freshAgent "t").2.state = AgentState.finished ∨
      (run neverFinishStep freshAgent "t").2.state = AgentState.error) ∧
    (run neverFinishStep freshAgent "t").2.currentStep ≤ freshAgent.maxSteps :=
  C4_run_ends_terminal neverFinishStep freshAgent "t" rfl (by decide)

/-- C3: from a fresh idle agent, when no step signals completion and none
raises, `run` performs exactly `maxSteps` steps, moves the agent to
`finished` (not `error`), and returns the budget-exhausted message as an
ordinary result rather than raising. -/
theorem C3_budget_exhaustion_is_soft (step : StepFn) (a : Agent) (request : String)
    (hidle : a.state = AgentState.idle) (hzero : a.currentStep = 0)
    (hstep : ∀ b, (step b).continuesOk) :
    (run step a request).1 = RunOutcome.ok budgetExhaustedMessage ∧
    (run step a request).2.state = AgentState.finished ∧
    (run step a request).2.currentStep = a.maxSteps := by
  unfold run
  rw [if_neg (by simp [hidle])]
  have h := runLoop_no_finish step hstep
    ((seededAgent a request).maxSteps - (seededAgent a request).currentStep)
    (seededAgent a request) (by simp) (by simp [hzero]) (by simp; omega)
  simpa using h

/-- C3 witness: a fresh idle agent with `maxSteps = 3` driven by a step
behaviour that never finishes ends after exactly 3 steps in `finished` with
the budget-exhausted message. -/
theorem C3_budget_exhaustion_is_soft_witness :
    (run neverFinishStep freshAgent "t").1 = RunOutcome.ok budgetExhaustedMessage ∧
    (run neverFinishStep freshAgent "t").2.state = AgentState.finished ∧
    (run neverFinishStep freshAgent "t").2.currentStep = freshAgent.maxSteps :=
  C3_budget_exhaustion_is_soft neverFinishStep freshAgent "t" rfl rfl (fun _ => rfl)

-- ============================================================
-- C6: the stuck detector
-- ============================================================

lemma dedup_length_lt_iff {α : Type} [DecidableEq α] (l : List α) :
    l.dedup.length < l.length ↔ ¬ l.Nodup := by
  constructor
  · intro h hnd
    rw [List.dedup_eq_self.mpr hnd] at h
    exact lt_irrefl _ h
  · intro hnd
    rcases lt_or_eq_of_le (List.Sublist.length_le (List.dedup_sublist l)) with h | h
    · exact h
    · exact absurd (List.dedup_eq_self.mp
        (List.Sublist.eq_of_length (List.dedup_sublist l) h)) hnd

lemma nodup_of_length_lt_two {α : Type} (l : List α) (h : l.length < 2) : l.Nodup := by
  match l with
  | [] => exact List.nodup_nil
  | [a] => exact List.nodup_singleton a
  | a :: b :: t => simp at h; omega

/-- A running agent whose 3-message memory ends with two identical assistant
turns. -/
def stuckAgent3 : Agent :=
  { name := "Agent", description := "", nextStepPrompt := "", maxSteps := 20,
    state := AgentState.running, currentStep := 1,
    memory := { messages := [assistantMessage (some "x"), assistantMessage (some "x"),
                  userMessage "y"], maxMessages := some 100 },
    logs := [], systemPrompt := "sp", clock := 0 }

/-- C6 counterexample: with 3 stored turns, the most recent 4 turns contain
two assistant turns with duplicated content, yet `isStuck` reports not-stuck
because of its `messages.length < 4` guard. -/
theorem C6_counterexample :
    stuckAgent3.isStuck = false ∧
    2 ≤ ((jsSliceFrom stuckAgent3.getMessages (-(4 : Int))).filter
        (fun m => m.role = Role.assistant)).length ∧
    ¬ (((jsSliceFrom stuckAgent3.getMessages (-(4 : Int))).filter
        (fun m => m.role = Role.assistant)).map (fun m => m.content)).Nodup := by
  refine ⟨by decide, by decide, by decide⟩

/-- C6 (amended): `isStuck` reports stuck exactly when the memory holds at
least 4 turns and, among the most recent 4 turns, the assistant-role turns
number at least 2 and contain a duplicated content; with fewer than 4 stored
turns, or fewer than 2 assistant turns in that window, it reports
not-stuck. -/
theorem C6_isStuck_characterization (a : Agent) :
    a.isStuck = true ↔
      4 ≤ a.getMessages.length ∧
      2 ≤ ((jsSliceFrom a.getMessages (-(4 : Int))).filter
          (fun m => m.role = Role.assistant)).length ∧
      ¬ (((jsSliceFrom a.getMessages (-(4 : Int))).filter
          (fun m => m.role = Role.assistant)).map (fun m => m.content)).Nodup := by
  unfold Agent.isStuck
  dsimp only
  by_cases hlen : a.getMessages.length < 4
  · rw [if_pos hlen]
    constructor
    · intro h
      simp at h
    · rintro ⟨h4, -⟩
      omega
  · rw [if_neg hlen]
    by_cases hcnt : ((jsSliceFrom a.getMessages (-(4 : Int))).filter
        (fun m => m.role = Role.assistant)).length < 2
    · rw [if_pos hcnt]
      constructor
      · intro h
        simp at h
      · rintro ⟨-, h2, -⟩
        omega
    · rw [if_neg hcnt]
      rw [decide_eq_true_eq, dedup_length_lt_iff]
      constructor
      · intro h
        exact ⟨by omega, by omega, h⟩
      · rintro ⟨-, -, h⟩
        exact h

-- ============================================================
-- Tools (src/tools/base.ts, terminate tool)
-- ============================================================

/-- `ToolResult` from `src/types.ts`: all four fields optional. -/
structure ToolResult where
  output : Option String := none
  error : Option String := none
  base64Image : Option String := none
  system : Option String := none
deriving DecidableEq, Repr

/-- A JavaScript value as it may appear in a tool's
`Record<string, unknown>` argument map. -/
inductive JSValue where
  | str (s : String)
  | bool (b : Bool)
  | num (n : Int)
  | null
  | undefined
deriving DecidableEq, Repr

/-- Tool arguments: a total map from key to value, `undefined` on absent
keys. -/
abbrev ToolArgs := String → JSValue

/-- What a tool's own `execute` may do: return a `ToolResult` or raise. -/
inductive ExecResult where
  | ok (r : ToolResult)
  | raise (msg : String)

/-- A registered tool: its name and its (possibly raising) `execute`.  The
`description`/`parameters` metadata plays no role in dispatch and is
omitted. -/
structure BaseTool where
  name : String
  execute : ToolArgs → ExecResult

/-- `BaseTool.failResponse`. -/
def failResponse (msg : String) : ToolResult :=
  { error := some msg }

/-- `BaseTool.call`: run `execute` inside `try`, converting any raised fault
into a `ToolResult` carrying the fault's message. -/
def BaseTool.call (t : BaseTool) (args : ToolArgs) : ToolResult :=
  match t.execute args with
  | ExecResult.ok r => r
  | ExecResult.raise msg => failResponse msg

/-- `ToolCollection`: the name-keyed `Map`, embedded as its association
list. -/
structure ToolCollection where
  tools : List (String × BaseTool)

/-- `ToolCollection.get` — `this.tools.get(name)`. -/
def ToolCollection.get (tc : ToolCollection) (name : String) : Option BaseTool :=
  tc.tools.lookup name

/-- `ToolCollection.execute`: unknown names yield the structured
`Tool not found` result; otherwise defer to `tool.call`. -/
def ToolCollection.execute (tc : ToolCollection) (name : String) (args : ToolArgs) :
    ToolResult :=
  match tc.get name with
  | none => { error := some ("Tool not found: " ++ name) }
  | some tool => tool.call args

/-- C7: resolving an unregistered name returns the structured tool-not-found
result, and a registered tool whose execution raises has the fault caught at
the call boundary and converted into a `ToolResult` carrying the fault's
message — `ToolCollection.execute` always returns a `ToolResult`, never a
raised fault. -/
theorem C7_resolve_never_raises (tc : ToolCollection) (name : String) (args : ToolArgs) :
    (tc.get name = none →
      tc.execute name args = { error := some ("Tool not found: " ++ name) }) ∧
    (∀ t msg, tc.get name = some t → t.execute args = ExecResult.raise msg →
      tc.execute name args = failResponse msg) := by
  constructor
  · intro h
    unfold ToolCollection.execute
    rw [h]
  · intro t msg hget hraise
    unfold ToolCollection.execute
    rw [hget]
    dsimp only
    unfold BaseTool.call
    rw [hraise]

/-- A tool whose execution always raises. -/
def raisingTool : BaseTool :=
  { name := "boom", execute := fun _ => ExecResult.raise "kaboom" }

/-- A registry holding only the raising tool. -/
def boomRegistry : ToolCollection :=
  { tools := [("boom", raisingTool)] }

/-- Arguments map with every key absent. -/
def emptyArgs : ToolArgs := fun _ => JSValue.undefined

/-- C7 witness: the unknown-name branch and the caught-fault branch
evaluated on a concrete registry. -/
theorem C7_resolve_never_raises_witness :
    boomRegistry.execute "missing" emptyArgs =
      { error := some ("Tool not found: " ++ "missing") } ∧
    boomRegistry.execute "boom" emptyArgs = failResponse "kaboom" :=
  ⟨(C7_resolve_never_raises boomRegistry "missing" emptyArgs).1 rfl,
   (C7_resolve_never_raises boomRegistry "boom" emptyArgs).2 raisingTool "kaboom" rfl rfl⟩

/-- `TerminateTool.execute`: `result = args.result as string` (the declared
required string parameter) and `success = args.success !== false` — a strict
comparison against the boolean `false`, so any other value, absent or
non-boolean included, counts as success. -/
def TerminateTool.execute (result : String) (success : JSValue) : ToolResult :=
  let s : Bool := success ≠ JSValue.bool false
  { output := some result,
    system := some (if s then "TASK_COMPLETED" else "TASK_FAILED") }

/-- C9: the terminate tool echoes its `result` argument as output, signals
`TASK_FAILED` exactly when `success` is the boolean `false`, signals
`TASK_COMPLETED` for every other `success` value (absent, truthy or
non-boolean), and never emits any other signal. -/
theorem C9_terminate_signal (result : String) (success : JSValue) :
    (TerminateTool.execute result success).output = some result ∧
    ((TerminateTool.execute result success).system = some "TASK_FAILED" ↔
      success = JSValue.bool false) ∧
    ((TerminateTool.execute result success).system = some "TASK_COMPLETED" ∨
      (TerminateTool.execute result success).system = some "TASK_FAILED") := by
  unfold TerminateTool.execute
  dsimp only
  by_cases h : success = JSValue.bool false
  · simp [h]
  · simp [h]

-- ============================================================
-- Pipeline (src/index.ts, runPipeline)
-- ============================================================

/-- `TokenUsage` as accumulated by the CLI. -/
structure TokenUsage where
  promptTokens : Nat
  completionTokens : Nat
  totalTokens : Nat
deriving DecidableEq, Repr

/-- Component-wise accumulation `totalUsage.x += result.usage.x`. -/
def addUsage (a b : TokenUsage) : TokenUsage :=
  { promptTokens := a.promptTokens + b.promptTokens,
    completionTokens := a.completionTokens + b.completionTokens,
    totalTokens := a.totalTokens + b.totalTokens }

/-- `{ promptTokens: 0, completionTokens: 0, totalTokens: 0 }`. -/
def zeroUsage : TokenUsage := ⟨0, 0, 0⟩

/-- `PipelineStage` from the CLI: model id, role label, per-stage step
budget, and the prompt construction function of (input, previous result). -/
structure PipelineStage where
  modelId : String
  role : String
  maxSteps : Nat
  promptTemplate : String → String → String

/-- Stage 1 of `PIPELINE_STAGES` (analysis, 3 steps). -/
def analysisStage : PipelineStage :=
  { modelId := "deepseek-v3.2", role := "분석/설계", maxSteps := 3,
    promptTemplate := fun input _ =>
      "요청을 분석하세요. 도구 사용 없이 텍스트로만 응답.\n\n요청: " ++ input ++
      "\n\n간결하게 작성:\n1. 핵심 요구사항 (3줄 이내)\n2. 구현 파일 목록\n3. 구현 순서\n\n바로 terminate로 분석 결과 반환." }

/-- Stage 2 of `PIPELINE_STAGES` (implementation, 15 steps). -/
def implementStage : PipelineStage :=
  { modelId := "deepseek-v3.2", role := "구현", maxSteps := 15,
    promptTemplate := fun input prevResult =>
      "계획대로 코드 구현:\n\n[요청] " ++ input ++ "\n\n[계획]\n" ++ prevResult ++
      "\n\n파일 작성 후 즉시 terminate로 완료 보고." }

/-- Stage 3 of `PIPELINE_STAGES` (review, 5 steps). -/
def reviewStage : PipelineStage :=
  { modelId := "deepseek-v3.2", role := "검토", maxSteps := 5,
    promptTemplate := fun _ prevResult =>
      "작성된 코드를 빠르게 검토하세요.\n\n[이전 결과]\n" ++ prevResult ++
      "\n\n검토 항목:\n- 명백한 버그만 수정 (있으면)\n- 불필요한 코드 제거 (있으면)\n\n수정할 게 없으면 바로 terminate.\n수정했으면 즉시 terminate." }

/-- The fixed ordered stage list `PIPELINE_STAGES`. -/
def PIPELINE_STAGES : List PipelineStage :=
  [analysisStage, implementStage, reviewStage]

/-- The ids of `AVAILABLE_MODELS` (src/models.ts). -/
def availableModelIds : List String :=
  ["deepseek-v3.2", "deepseek-r1", "deepseek-coder", "minimax-m2.1"]

/-- `AVAILABLE_MODELS.find(m => m.id === stage.modelId)` succeeds. -/
def modelFound (id : String) : Bool :=
  availableModelIds.contains id

/-- What one `runCodingTask(stagePrompt, ...)` call may produce:
`{success: true, result, usage}`, `{success: false, result, usage}`, or a
thrown error.  `runCodingTask` drives the remote model, so its behaviour is
an oracle parameter indexed by stage number and the stage prompt it was
given. -/
inductive StageOutcome where
  | success (result : String) (usage : TokenUsage)
  | failure (result : String) (usage : TokenUsage)
  | fault (msg : String)

/-- One entry of `stageResults` (the wall-clock `elapsed` field is not
modelled). -/
structure StageRecord where
  stage : PipelineStage
  result : String
  usage : TokenUsage

/-- The loop state of `runPipeline`, plus the list of stage indices on which
`runCodingTask` was started (observing the fail-fast behaviour). -/
structure PipelineRun where
  prevResult : String
  stageResults : List StageRecord
  totalUsage : TokenUsage
  started : List Nat

/-- `prevResult = ''` and empty accumulators at loop entry. -/
def initPipelineRun : PipelineRun :=
  { prevResult := "", stageResults := [], totalUsage := zeroUsage, started := [] }

/-- The `for (let i = 0; ...)` loop of `runPipeline`: skip a stage whose
model id is unknown (`continue`), otherwise start `runCodingTask` on the
stage prompt built from the input and the threaded previous result; on
success push the stage record, accumulate usage and thread the result; on a
failed result or a thrown error stop the remaining stages (`break`). -/
def runPipelineAux (outcome : Nat → String → StageOutcome) (input : String) :
    List (Nat × PipelineStage) → PipelineRun → PipelineRun
  | [], st => st
  | (i, stage) :: rest, st =>
    if modelFound stage.modelId then
      let stagePrompt := stage.promptTemplate input st.prevResult
      let st1 : PipelineRun := { st with started := st.started ++ [i] }
      match outcome i stagePrompt with
      | StageOutcome.success r u =>
        runPipelineAux outcome input rest
          { prevResult := r,
            stageResults := st1.stageResults ++ [⟨stage, r, u⟩],
            totalUsage := addUsage st1.totalUsage u,
            started := st1.started }
      | StageOutcome.failure _ _ => st1
      | StageOutcome.fault _ => st1
    else
      runPipelineAux outcome input rest st

/-- `runPipeline` over the fixed stage list. -/
def runPipeline (outcome : Nat → String → StageOutcome) (input : String) : PipelineRun :=
  runPipelineAux outcome input
    [(0, analysisStage), (1, implementStage), (2, reviewStage)] initPipelineRun

/-- The final result block is printed only when
`stageResults.length === PIPELINE_STAGES.length`. -/
def pipelineFinalReport (st : PipelineRun) : Option String :=
  if st.stageResults.length = PIPELINE_STAGES.length then some st.prevResult else none

/-- The pipeline state after the first `n` stages when they all succeeded
(`none` as soon as one of them did not). -/
def pipelineOkThrough (outcome : Nat → String → StageOutcome) (input : String) :
    Nat → Option PipelineRun
  | 0 => some initPipelineRun
  | n + 1 =>
    match pipelineOkThrough outcome input n, PIPELINE_STAGES.get? n with
    | some st, some stage =>
      match outcome n (stage.promptTemplate input st.prevResult) with
      | StageOutcome.success r u =>
        some { prevResult := r,
               stageResults := st.stageResults ++ [⟨stage, r, u⟩],
               totalUsage := addUsage st.totalUsage u,
               started := st.started ++ [n] }
      | StageOutcome.failure _ _ => none
      | StageOutcome.fault _ => none
    | _, _ => none

lemma pipelineOkThrough_shape (outcome : Nat → String → StageOutcome) (input : String) :
    ∀ (n : Nat) (st : PipelineRun), pipelineOkThrough outcome input n = some st →
      st.started = List.range n ∧ st.stageResults.length = n := by
  intro n
  induction n with
  | zero =>
    intro st h
    simp only [pipelineOkThrough, Option.some.injEq] at h
    subst h
    exact ⟨rfl, rfl⟩
  | succ n ih =>
    intro st h
    simp only [pipelineOkThrough] at h
    cases hp : pipelineOkThrough outcome input n with
    | none => rw [hp] at h; simp at h
    | some st' =>
      rw [hp] at h
      cases hg : PIPELINE_STAGES.get? n with
      | none => rw [hg] at h; simp at h
      | some stage =>
        rw [hg] at h
        dsimp only at h
        cases ho : outcome n (stage.promptTemplate input st'.prevResult) with
        | success r u =>
          rw [ho] at h
          simp only [Option.some.injEq] at h
          subst h
          obtain ⟨h1, h2⟩ := ih st' hp
          constructor
          · simpa [h1] using (List.range_succ (n := n)).symm
          · simp [h2]
        | failure r u => rw [ho] at h; simp at h
        | fault m => rw [ho] at h; simp at h

lemma runPipelineAux_cons_fail (outcome : Nat → String → StageOutcome) (input : String)
    (i : Nat) (stage : PipelineStage) (rest : List (Nat × PipelineStage)) (st : PipelineRun)
    (hfound : modelFound stage.modelId = true)
    (hfail : ∀ r u, outcome i (stage.promptTemplate input st.prevResult) ≠
      StageOutcome.success r u) :
    runPipelineAux outcome input ((i, stage) :: rest) st =
      { st with started := st.started ++ [i] } := by
  rw [runPipelineAux, if_pos hfound]
  dsimp only
  cases ho : outcome i (stage.promptTemplate input st.prevResult) with
  | success r u => exact absurd ho (hfail r u)
  | failure r u => rfl
  | fault m => rfl

lemma runPipelineAux_cons_success (outcome : Nat → String → StageOutcome) (input : String)
    (i : Nat) (stage : PipelineStage) (rest : List (Nat × PipelineStage)) (st : PipelineRun)
    (r : String) (u : TokenUsage)
    (hfound : modelFound stage.modelId = true)
    (ho : outcome i (stage.promptTemplate input st.prevResult) = StageOutcome.success r u) :
    runPipelineAux outcome input ((i, stage) :: rest) st =
      runPipelineAux outcome input rest
        { prevResult := r, stageResults := st.stageResults ++ [⟨stage, r, u⟩],
          totalUsage := addUsage st.totalUsage u, started := st.started ++ [i] } := by
  rw [runPipelineAux, if_pos hfound]
  dsimp only
  rw [ho]

/-- C8: over the fixed ordered stage list, if the first `i` stages succeed
and stage `i` fails (a failed result or a thrown error), then exactly stages
`0..i` are started — nothing after `i` — the retained stage-result list is
precisely that of the succeeded stages, total usage is the accumulation over
the succeeded stages only, and the final result block is not reported. -/
theorem C8_pipeline_fail_fast (outcome : Nat → String → StageOutcome) (input : String)
    (i : Nat) (st0 : PipelineRun) (stg : PipelineStage)
    (hok : pipelineOkThrough outcome input i = some st0)
    (hstg : PIPELINE_STAGES.get? i = some stg)
    (hfail : ∀ r u, outcome i (stg.promptTemplate input st0.prevResult) ≠
      StageOutcome.success r u) :
    runPipeline outcome input = { st0 with started := st0.started ++ [i] } ∧
    (runPipeline outcome input).started = List.range (i + 1) ∧
    (runPipeline outcome input).stageResults = st0.stageResults ∧
    (runPipeline outcome input).stageResults.length = i ∧
    (runPipeline outcome input).totalUsage = st0.totalUsage ∧
    pipelineFinalReport (runPipeline outcome input) = none := by
  have hi : i < 3 := by
    by_contra hge
    rw [List.get?_eq_none.mpr (by simp [PIPELINE_STAGES]; omega)] at hstg
    exact Option.noConfusion hstg
  suffices hmain : runPipeline outcome input = { st0 with started := st0.started ++ [i] } by
    obtain ⟨hsh1, hsh2⟩ := pipelineOkThrough_shape outcome input i st0 hok
    refine ⟨hmain, ?_, ?_, ?_, ?_, ?_⟩
    · rw [hmain]
      simp [hsh1, List.range_succ]
    · rw [hmain]
    · rw [hmain]
      simpa using hsh2
    · rw [hmain]
    · rw [hmain]
      simp only [pipelineFinalReport, PIPELINE_STAGES]
      rw [if_neg]
      simp [hsh2]
      omega
  interval_cases i
  · simp only [pipelineOkThrough, Option.some.injEq] at hok
    subst hok
    simp only [PIPELINE_STAGES, List.get?_cons_zero, Option.some.injEq] at hstg
    subst hstg
    rw [runPipeline]
    exact runPipelineAux_cons_fail outcome input 0 analysisStage _ initPipelineRun
      (by decide) hfail
  · simp only [pipelineOkThrough, PIPELINE_STAGES, List.get?_cons_zero] at hok
    simp only [PIPELINE_STAGES, List.get?_cons_succ, List.get?_cons_zero,
      Option.some.injEq] at hstg
    subst hstg
    cases h0 : outcome 0 (analysisStage.promptTemplate input initPipelineRun.prevResult) with
    | success r0 u0 =>
      rw [h0] at hok
      simp only [Option.some.injEq] at hok
      subst hok
      rw [runPipeline]
      rw [runPipelineAux_cons_success outcome input 0 analysisStage _ initPipelineRun r0 u0
        (by decide) h0]
      exact runPipelineAux_cons_fail outcome input 1 implementStage _ _ (by decide) hfail
    | failure r0 u0 =>
      rw [h0] at hok
      simp at hok
    | fault m =>
      rw [h0] at hok
      simp at hok
  · simp only [pipelineOkThrough, PIPELINE_STAGES, List.get?_cons_zero,
      List.get?_cons_succ] at hok
    simp only [PIPELINE_STAGES, List.get?_cons_succ, List.get?_cons_zero,
      Option.some.injEq] at hstg
    subst hstg
    cases h0 : outcome 0 (analysisStage.promptTemplate input initPipelineRun.prevResult) with
    | success r0 u0 =>
      rw [h0] at hok
      dsimp only at hok
      cases h1 : outcome 1 (implementStage.promptTemplate input r0) with
      | success r1 u1 =>
        rw [h1] at hok
        simp only [Option.some.injEq] at hok
        subst hok
        rw [runPipeline]
        rw [runPipelineAux_cons_success outcome input 0 analysisStage _ initPipelineRun r0 u0
          (by decide) h0]
        rw [runPipelineAux_cons_success outcome input 1 implementStage _ _ r1 u1
          (by decide) h1]
        exact runPipelineAux_cons_fail outcome input 2 reviewStage _ _ (by decide) hfail
      | failure r1 u1 =>
        rw [h1] at hok
        simp at hok
      | fault m =>
        rw [h1] at hok
        simp at hok
    | failure r0 u0 =>
      rw [h0] at hok
      simp at hok
    | fault m =>
      rw [h0] at hok
      simp at hok

/-- An oracle where stage 0 succeeds and every later stage reports a failed
result. -/
def stageFailOutcome : Nat → String → StageOutcome := fun i _ =>
  if i = 0 then StageOutcome.success "r0" ⟨1, 2, 3⟩ else StageOutcome.failure "boom" zeroUsage

/-- The pipeline state after the successful stage 0 of `stageFailOutcome`. -/
def afterStage0 : PipelineRun :=
  { prevResult := "r0",
    stageResults := [⟨analysisStage, "r0", ⟨1, 2, 3⟩⟩],
    totalUsage := ⟨1, 2, 3⟩,
    started := [0] }

/-- C8 witness: a concrete 3-stage run where stage 1 fails — stage 0's
record is retained, stage 2 never starts, and no final result is
reported. -/
theorem C8_pipeline_fail_fast_witness :
    runPipeline stageFailOutcome "t" =
      { afterStage0 with started := afterStage0.started ++ [1] } ∧
    (runPipeline stageFailOutcome "t").started = List.range (1 + 1) ∧
    (runPipeline stageFailOutcome "t").stageResults = afterStage0.stageResults ∧
    (runPipeline stageFailOutcome "t").stageResults.length = 1 ∧
    (runPipeline stageFailOutcome "t").totalUsage = afterStage0.totalUsage ∧
    pipelineFinalReport (runPipeline stageFailOutcome "t") = none :=
  C8_pipeline_fail_fast stageFailOutcome "t" 1 afterStage0 implementStage rfl rfl
    (fun r u h => by simp [stageFailOutcome] at h)

/-- A running agent whose 4-message memory repeats an assistant content. -/
def stuckAgent4 : Agent :=
  { name := "Agent", description := "", nextStepPrompt := "", maxSteps := 20,
    state := AgentState.running, currentStep := 2,
    memory := { messages := [userMessage "q", assistantMessage (some "x"),
                  userMessage "y", assistantMessage (some "x")], maxMessages := some 100 },
    logs := [], systemPrompt := "sp", clock := 0 }

/-- C6 witness: the characterization instantiated on a concrete 4-message
memory with a repeated assistant content. -/
theorem C6_isStuck_characterization_witness :
    stuckAgent4.isStuck = true ↔
      4 ≤ stuckAgent4.getMessages.length ∧
      2 ≤ ((jsSliceFrom stuckAgent4.getMessages (-(4 : Int))).filter
          (fun m => m.role = Role.assistant)).length ∧
      ¬ (((jsSliceFrom stuckAgent4.getMessages (-(4 : Int))).filter
          (fun m => m.role = Role.assistant)).map (fun m => m.content)).Nodup :=
  C6_isStuck_characterization stuckAgent4

/-- C9 witness: terminate with the `success` argument absent completes the
task and echoes the result text. -/
theorem C9_terminate_signal_witness :
    (TerminateTool.execute "done" JSValue.undefined).output = some "done" ∧
    ((TerminateTool.execute "done" JSValue.undefined).system = some "TASK_FAILED" ↔
      JSValue.undefined = JSValue.bool false) ∧
    ((TerminateTool.execute "done" JSValue.undefined).system = some "TASK_COMPLETED" ∨
      (TerminateTool.execute "done" JSValue.undefined).system = some "TASK_FAILED") :=
  C9_terminate_signal "done" JSValue.undefined

/-- C10 witness: clearing a concrete mid-run agent resets it fully. -/
theorem C10_clearMemory_resets_witness :
    busyAgent.clearMemory.state = AgentState.idle ∧
    busyAgent.clearMemory.currentStep = 0 ∧
    busyAgent.clearMemory.memory = createMemory (some 100) ∧
    busyAgent.clearMemory.memory.messages = [] ∧
    busyAgent.clearMemory.getLogs = [] :=
  C10_clearMemory_resets busyAgent

end DeepseekCode
